import Mathlib

/-!
Shallow embedding of `lstests/core/helper.py`: miscellaneous formatting,
text-truncation and JSON-trimming helpers of a test-support library.

Python strings are modelled as Lean `String` (a list of characters; Python
`len` counts code points, matching `String.length` on the character list).
Python integers are `Int`.  Python slices `s[:k]` and `s[a:]` with possibly
negative bounds are modelled by `pyTake` and `pySliceFrom` below.  Fallible
code returns `Except`.  In-place mutation of a JSON tree (`trim`) is
modelled by a pure function computing the final value of the mutated
argument.
-/

/-- Python `str.upper` restricted to ASCII data (`level.upper()` in
`format_header`). -/
def pyUpper (s : String) : String :=
  String.mk (s.data.map Char.toUpper)

/-- Worker for `pyTitle`: the Boolean records whether the previous character
was alphabetic (Python: cased). -/
def pyTitleAux : Bool → List Char → List Char
  | _, [] => []
  | prev, c :: rest =>
    (if c.isAlpha then (if prev then c.toLower else c.toUpper) else c)
      :: pyTitleAux c.isAlpha rest

/-- Python `str.title` restricted to ASCII data: the first character of each
alphabetic run is uppercased, the rest lowercased (`header.title()`). -/
def pyTitle (s : String) : String :=
  String.mk (pyTitleAux false s.data)

/-- Number of leading decimal digits of a character list (the greedy `[0-9]+`
of the color-escape pattern). -/
def countDigits : List Char → Nat
  | [] => 0
  | c :: rest => if c.isDigit then countDigits rest + 1 else 0

/-- When the list starts with a match of the color-escape pattern
`ESC \[ [0-9]+ (;[0-9]+)? m` of `vislen`, the length of that match. -/
def colorCodeLen (l : List Char) : Option Nat :=
  match l with
  | '\x1b' :: '[' :: rest =>
    if countDigits rest = 0 then none
    else
      match rest.drop (countDigits rest) with
      | 'm' :: _ => some (2 + countDigits rest + 1)
      | ';' :: r2 =>
        if countDigits r2 = 0 then none
        else
          match r2.drop (countDigits r2) with
          | 'm' :: _ => some (2 + countDigits rest + 1 + countDigits r2 + 1)
          | _ => none
      | _ => none
  | _ => none

theorem colorCodeLen_pos {l : List Char} {n : Nat} (h : colorCodeLen l = some n) :
    1 ≤ n := by
  unfold colorCodeLen at h
  repeat' split at h
  all_goals try exact Option.noConfusion h
  all_goals injection h with h; omega

/-- Removal of every color-escape match, leftmost and non-overlapping, as
`re.sub` performs it in `vislen`. -/
def stripColor (l : List Char) : List Char :=
  match l with
  | [] => []
  | c :: rest =>
    match h : colorCodeLen (c :: rest) with
    | some n => stripColor ((c :: rest).drop n)
    | none => c :: stripColor rest
termination_by l.length
decreasing_by
  · have h1 := colorCodeLen_pos h
    simp [List.length_drop]
    omega
  · simp

/-- Model of `vislen(s)`: visible length of a string after removing color codes. -/
def vislen (s : String) : Nat :=
  (stripColor s.data).length

/-- Python `str.ljust(width, fillchar)` with a possibly non-positive width:
pads on the right up to `width`, returns the string unchanged when its
length already reaches `width`. -/
def ljust (s : String) (width : Int) (fill : Char) : String :=
  if (s.length : Int) < width then
    s ++ String.mk (List.replicate (width - (s.length : Int)).toNat fill)
  else s

/-- Model of `pad(text, total, left=0, char=" ", sep="", textlen=None)`: builds
`char*left + sep + text + sep` and right-pads it with `char` to width
`total + (len(text) - textlen)`, `textlen` defaulting to `vislen(text)`. -/
def pad (text : String) (total : Int) (left : Int) (char : Char)
    (sep : String) (textlen : Option Int) : String :=
  match textlen with
  | none =>
    ljust (String.mk (List.replicate left.toNat char) ++ sep ++ text ++ sep)
      (total + ((text.length : Int) - (vislen text : Int))) char
  | some tl =>
    ljust (String.mk (List.replicate left.toNat char) ++ sep ++ text ++ sep)
      (total + ((text.length : Int) - tl)) char

/-- Python slice `s[:k]` on a character list, `k` possibly negative. -/
def pyTake (l : List Char) (k : Int) : List Char :=
  if 0 ≤ k then l.take k.toNat else l.take (l.length - (-k).toNat)

/-- Python slice `s[a:]` on a character list, `a` possibly negative. -/
def pySliceFrom (l : List Char) (a : Int) : List Char :=
  if 0 ≤ a then l.drop a.toNat else l.drop (l.length - (-a).toNat)

/-- Model of `squeeze(s, maxlen, tail=0)`: a string not longer than `maxlen` is
returned unchanged; otherwise `s[:(maxlen-tail-2)] + ".." + (s[-tail:] if
tail else "")` with Python slice semantics. -/
def squeeze (s : String) (maxlen : Int) (tl : Int) : String :=
  if (s.length : Int) ≤ maxlen then s
  else
    String.mk (pyTake s.data (maxlen - tl - 2)) ++ ".." ++
      (if tl ≠ 0 then String.mk (pySliceFrom s.data (-tl)) else "")

/-!
JSON-like values as produced by `json.loads`: mappings keep their keys in
insertion order (`Fields`), sequences are ordered (`Elems`).  Numbers are
modelled by `Int`; no claim depends on floating-point values.
-/
mutual
inductive Json where
  | obj : Fields → Json
  | arr : Elems → Json
  | str : String → Json
  | num : Int → Json
  | bool : Bool → Json
  | null : Json
inductive Fields where
  | nil : Fields
  | cons : String → Json → Fields → Fields
inductive Elems where
  | nil : Elems
  | cons : Json → Elems → Elems
end

/-- Entry of a mapping at position `i` of its insertion order. -/
def Fields.get? : Fields → Nat → Option (String × Json)
  | .nil, _ => none
  | .cons k v _, 0 => some (k, v)
  | .cons _ _ r, i + 1 => r.get? i

/-- Python `d[key]` membership on a mapping (keys are unique in a dict). -/
def Fields.lookup : Fields → String → Option Json
  | .nil, _ => none
  | .cons k v r, key => if k = key then some v else r.lookup key

/-- Keys of a mapping in insertion order. -/
def Fields.keys : Fields → List String
  | .nil => []
  | .cons k _ r => k :: r.keys

/-- Element of a sequence at position `i`. -/
def Elems.get? : Elems → Nat → Option Json
  | .nil, _ => none
  | .cons v _, 0 => some v
  | .cons _ r, i + 1 => r.get? i

/-- Length of a sequence. -/
def Elems.length : Elems → Nat
  | .nil => 0
  | .cons _ r => r.length + 1

/-!
Model of `trim(data, maxlen=79)`, modelled as the final value of the mutated
argument.  `trimData` is `trim` itself: it rewrites a dict via `trimFields`,
a list via `trimElems`, and leaves any other value as is.  `trimFieldVal` is
the body of the dict loop: a dict or list value is recursed into, a string
value longer than `maxlen` is replaced by `squeeze(value, maxlen, tail=3)`.
`trimItem` is the body of the list loop: a dict or list element is recursed
into; for any other element the loop rebinds a local variable and discards
it, so the element is left untouched.
-/
mutual
def trimData (m : Int) : Json → Json
  | .obj f => .obj (trimFields m f)
  | .arr e => .arr (trimElems m e)
  | j => j
def trimFields (m : Int) : Fields → Fields
  | .nil => .nil
  | .cons k v r => .cons k (trimFieldVal m v) (trimFields m r)
def trimFieldVal (m : Int) : Json → Json
  | .obj f => .obj (trimFields m f)
  | .arr e => .arr (trimElems m e)
  | .str s => if (s.length : Int) > m then .str (squeeze s m 3) else .str s
  | j => j
def trimElems (m : Int) : Elems → Elems
  | .nil => .nil
  | .cons v r => .cons (trimItem m v) (trimElems m r)
def trimItem (m : Int) : Json → Json
  | .obj f => .obj (trimFields m f)
  | .arr e => .arr (trimElems m e)
  | j => j
end

/-- Model of `format_header(header, level)`: the source computes `upper =
level.upper()` and then compares `upper` against the lowercase literals
`"info"`, `"debug"` and `"trace"`, so those branches can never be taken; in
the dead `debug` and `trace` branches the call `pad(..., char="-")` omits
the required positional argument `total` of `pad` and would itself raise a
`TypeError`.  Every reachable run ends in `raise RuntimeError('Invalid
header level "<level>"')`. -/
def format_header (header level : String) : Except String String :=
  if pyUpper level = "info" then Except.ok (">>> " ++ pyTitle header)
  else if pyUpper level = "debug" then
    Except.error "TypeError: pad() missing 1 required positional argument: total"
  else if pyUpper level = "trace" then
    Except.error "TypeError: pad() missing 1 required positional argument: total"
  else Except.error ("Invalid header level \"" ++ level ++ "\"")

/-- Model of `make_header(header, level="debug")`.  The collaborators
`logger.LogLevel` and `color.black_on_cyan` are not part of the staged
sources; modelled from the spec: `normalize` is the `LogLevel`
parser/normalizer (an opaque enumeration with at least the values `info`,
`debug`, `trace`), `black_on_cyan` the opaque color-highlighting function.
An unrecognized normalized level falls through and returns the header
unchanged. -/
def make_header (normalize : String → String) (black_on_cyan : String → String)
    (header level : String) : String :=
  if normalize level = "info" then ">>> " ++ pyTitle header
  else if normalize level = "debug" then
    pad (black_on_cyan header) 100 20 '-' "" none
  else if normalize level = "trace" then pad header 100 20 '⎯' "" none
  else header

/-- Model of `format_json(text, maxlen=100)`: parses `text`, and when `maxlen` is
truthy calls `trim(data, maxlen=100)` — the fixed threshold 100, not the
`maxlen` argument — then serializes.  `loads` and `dumps` stand for
`json.loads` and `json.dumps(..., indent=4, sort_keys=False)`, opaque
inverse serializers at the module boundary. -/
def format_json (loads : String → Json) (dumps : Json → String)
    (text : String) (maxlen : Int) : String :=
  dumps (if maxlen ≠ 0 then trimData 100 (loads text) else loads text)

/-- Python errors that `extract` can let escape: a JSON decode failure from
`json.loads`, or the `TypeError` of subscripting a non-dict with a string
key.  The `KeyError` of a missing key is the one error `extract` catches. -/
inductive PyError where
  | parseFailure : PyError
  | typeError : PyError
deriving DecidableEq

/-- Model of `extract(resp, key, fallback)`: `json.loads(resp.text)[key]` with only
`KeyError` caught and turned into `fallback`.  `loads` stands for
`json.loads` applied to the response text, `none` being a decode failure. -/
def extract (loads : String → Option Json) (text key : String)
    (fallback : Json) : Except PyError Json :=
  match loads text with
  | none => Except.error PyError.parseFailure
  | some (Json.obj f) =>
    match f.lookup key with
    | some v => Except.ok v
    | none => Except.ok fallback
  | some _ => Except.error PyError.typeError

/-!
Model of `copy.deepcopy` on a JSON-like tree: a structurally fresh tree, value-equal
to the argument (the freshness is what makes mutation of the copy invisible
through the original).
-/
mutual
def copyJson : Json → Json
  | .obj f => .obj (copyFields f)
  | .arr e => .arr (copyElems e)
  | .str s => .str s
  | .num n => .num n
  | .bool b => .bool b
  | .null => .null
def copyFields : Fields → Fields
  | .nil => .nil
  | .cons k v r => .cons k (copyJson v) (copyFields r)
def copyElems : Elems → Elems
  | .nil => .nil
  | .cons v r => .cons (copyJson v) (copyElems r)
end

/-- Model of `abridge(data, maxlen=79)`: deep-copies `data`, trims the clone in
place, returns the clone.  The pair is (returned clone, final value of the
`data` argument): `trim` runs on the copy only, so the argument keeps its
initial value. -/
def abridge (data : Json) (maxlen : Int) : Json × Json :=
  (trimData maxlen (copyJson data), data)

/-- The loop of `override`: first non-`None` value of an already reversed
argument list. -/
def firstNonNone {α : Type} : List (Option α) → Option α
  | [] => none
  | some x :: _ => some x
  | none :: rest => firstNonNone rest

/-- Model of `override(*args)`: scans the arguments from last to first and returns
the first non-`None` one, or `None` when all are `None`. -/
def override {α : Type} (args : List (Option α)) : Option α :=
  firstNonNone args.reverse

/-- A string of one hundred `x` characters, the `"x"*100` of the spec's
examples. -/
def xs100 : String :=
  String.mk (List.replicate 100 'x')

theorem squeeze_of_le (s : String) (m t : Int) (h : (s.length : Int) ≤ m) :
    squeeze s m t = s := by
  unfold squeeze
  rw [if_pos h]

theorem squeeze_of_long (s : String) (m t : Int) (ht : 0 ≤ t)
    (h2 : 0 ≤ m - t - 2) (hl : m < (s.length : Int)) :
    squeeze s m t = String.mk (s.data.take (m - t - 2).toNat) ++ ".." ++
      (if t = 0 then "" else String.mk (s.data.drop (s.data.length - t.toNat))) := by
  unfold squeeze pyTake pySliceFrom
  rw [if_neg (by omega), if_pos h2]
  by_cases h0 : t = 0
  · subst h0
    simp
  · rw [if_pos h0, if_neg (by omega : ¬ (0 : Int) ≤ -t), if_neg h0]
    simp

theorem squeeze_length_of_long (s : String) (m t : Int) (ht : 0 ≤ t)
    (h2 : 0 ≤ m - t - 2) (hl : m < (s.length : Int)) :
    ((squeeze s m t).length : Int) = m := by
  rw [squeeze_of_long s m t ht h2 hl]
  have hd : s.length = s.data.length := rfl
  have hdd : (".." : String).length = 2 := rfl
  by_cases h0 : t = 0
  · subst h0
    simp [String.length_append, String.length_mk, List.length_take,
      String.length_empty, hdd]
    omega
  · rw [if_neg h0]
    simp [String.length_append, String.length_mk, List.length_take,
      List.length_drop, hdd]
    omega

/-- C1: the spec says `format_header(h, "info")` returns `">>> " +
titleCase(h)`, `"debug"` and `"trace"` return padded headers, and only
other levels raise `InvalidArgument`.  The code compares `level.upper()`
against the lowercase literals, so every level — the three recognized ones
included — reaches the final `raise RuntimeError('Invalid header level
...')`: at the failing input `("hello", "info")` the call errors instead of
returning `">>> Hello"`.  Only the unrecognized-level half of the claim
matches the code. -/
theorem c1_format_header_always_raises :
    format_header "hello" "info" = Except.error "Invalid header level \"info\"" ∧
    format_header "hello" "debug" = Except.error "Invalid header level \"debug\"" ∧
    format_header "hello" "trace" = Except.error "Invalid header level \"trace\"" ∧
    format_header "hello" "bogus" = Except.error "Invalid header level \"bogus\"" :=
  ⟨rfl, rfl, rfl, rfl⟩

/-- C4 (amended with `0 ≤ tail`): for `0 ≤ tail` and `maxLen - tail - 2 ≥
0`, `squeeze(s, maxLen, tail)` returns `s` unchanged when `len(s) ≤
maxLen`, and otherwise returns the first `maxLen - tail - 2` characters,
the two-character elision marker `".."`, then the last `tail` characters
(omitted when `tail` is 0), with output length `maxLen` when `tail > 0`
and `maxLen - tail` otherwise.  For negative `tail` the claim fails (see
the counterexample): Python's negative slice bounds make the output longer
than claimed. -/
theorem c4_squeeze_spec (s : String) (m t : Int) (ht : 0 ≤ t)
    (h2 : 0 ≤ m - t - 2) :
    ((s.length : Int) ≤ m → squeeze s m t = s) ∧
    (m < (s.length : Int) →
      squeeze s m t = String.mk (s.data.take (m - t - 2).toNat) ++ ".." ++
        (if t = 0 then "" else String.mk (s.data.drop (s.data.length - t.toNat))) ∧
      ((squeeze s m t).length : Int) = if 0 < t then m else m - t) := by
  constructor
  · exact squeeze_of_le s m t
  · intro hl
    refine ⟨squeeze_of_long s m t ht h2 hl, ?_⟩
    rw [squeeze_length_of_long s m t ht h2 hl]
    by_cases h0 : 0 < t
    · rw [if_pos h0]
    · rw [if_neg h0]
      omega

/-- Witness for C4 at the spec's own examples: `squeeze("abcdefghij", 6,
tail=0)` is `"abcd.."` and `squeeze("abcdefghij", 8, tail=2)` is
`"abcd..ij"` of length 8. -/
theorem c4_squeeze_spec_witness :
    squeeze "abcdefghij" 6 0 = "abcd.." ∧
    squeeze "abcdefghij" 8 2 = "abcd..ij" ∧
    ((squeeze "abcdefghij" 8 2).length : Int) = 8 := by
  have h6 := (c4_squeeze_spec "abcdefghij" 6 0 (by decide) (by decide)).2 (by decide)
  have h8 := (c4_squeeze_spec "abcdefghij" 8 2 (by decide) (by decide)).2 (by decide)
  refine ⟨?_, ?_, ?_⟩
  · rw [h6.1]
    decide
  · rw [h8.1]
    decide
  · rw [h8.2]
    decide

/-- Counterexample to C4 as stated: `tail = -1`, `maxLen = 5` satisfy the
claim's hypothesis `maxLen - tail - 2 = 4 ≥ 0`, yet the output of
`squeeze("abcdefghij", 5, -1)` has length 15, not the claimed `maxLen -
tail = 6`. -/
theorem c4_squeeze_spec_counterexample :
    (0 : Int) ≤ 5 - (-1) - 2 ∧
    5 < (("abcdefghij" : String).length : Int) ∧
    squeeze "abcdefghij" 5 (-1) = "abcd..bcdefghij" ∧
    ¬ (((squeeze "abcdefghij" 5 (-1)).length : Int) = 5 - (-1)) := by
  refine ⟨by decide, by decide, by decide, by decide⟩

theorem firstNonNone_append_of_none {α : Type} (l rest : List (Option α))
    (h : ∀ x ∈ l, x = none) :
    firstNonNone (l ++ rest) = firstNonNone rest := by
  induction l with
  | nil => rfl
  | cons a l ih =>
    have ha : a = none := h a (List.mem_cons_self a l)
    subst ha
    rw [List.cons_append]
    show firstNonNone (l ++ rest) = firstNonNone rest
    exact ih fun x hx => h x (List.mem_cons_of_mem _ hx)

theorem firstNonNone_of_none {α : Type} (l : List (Option α))
    (h : ∀ x ∈ l, x = none) :
    firstNonNone l = none := by
  induction l with
  | nil => rfl
  | cons a l ih =>
    have ha : a = none := h a (List.mem_cons_self a l)
    subst ha
    show firstNonNone l = none
    exact ih fun x hx => h x (List.mem_cons_of_mem _ hx)

/-- C5 (spec-modelled collaborator): for a level whose `LogLevel`
normalization is none of `"info"`, `"debug"` and `"trace"`, `make_header`
falls through every branch and returns the header unchanged, without
failing — unlike `format_header`, which errors on an unrecognized level. -/
theorem c5_make_header_unrecognized (normalize hilite : String → String)
    (header level : String) (h1 : normalize level ≠ "info")
    (h2 : normalize level ≠ "debug") (h3 : normalize level ≠ "trace") :
    make_header normalize hilite header level = header := by
  unfold make_header
  rw [if_neg h1, if_neg h2, if_neg h3]

/-- Witness for C5: with the identity normalizer, `make_header(h, "bogus")`
returns `h` unchanged. -/
theorem c5_make_header_unrecognized_witness :
    make_header id id "some header" "bogus" = "some header" :=
  c5_make_header_unrecognized id id "some header" "bogus"
    (by decide) (by decide) (by decide)

/-- C6: `format_json` trims at the fixed threshold 100 whatever truthy
`maxlen` it is given, so its output at any nonzero `maxlen` equals its
output at 100; a falsy `maxlen` (0) skips trimming entirely. -/
theorem c6_format_json_fixed_threshold (loads : String → Json)
    (dumps : Json → String) (text : String) (maxlen : Int) :
    (maxlen ≠ 0 →
      format_json loads dumps text maxlen = format_json loads dumps text 100) ∧
    format_json loads dumps text 0 = dumps (loads text) := by
  constructor
  · intro h
    unfold format_json
    rw [if_pos h, if_pos (by decide : (100 : Int) ≠ 0)]
  · unfold format_json
    rw [if_neg (by decide : ¬ ((0 : Int) ≠ 0))]

/-- C7: `extract` returns the value under `key` when the parsed body has
it, the caller-supplied fallback when the key is missing, and lets a parse
failure of a malformed body propagate uncaught. -/
theorem c7_extract (loads : String → Option Json) (text key : String)
    (fallback : Json) :
    (∀ (f : Fields) (v : Json), loads text = some (Json.obj f) →
      f.lookup key = some v →
      extract loads text key fallback = Except.ok v) ∧
    (∀ f : Fields, loads text = some (Json.obj f) → f.lookup key = none →
      extract loads text key fallback = Except.ok fallback) ∧
    (loads text = none →
      extract loads text key fallback = Except.error PyError.parseFailure) := by
  refine ⟨?_, ?_, ?_⟩
  · intro f v h1 h2
    simp [extract, h1, h2]
  · intro f h1 h2
    simp [extract, h1, h2]
  · intro h1
    simp [extract, h1]

/-- C8: `override` returns the last non-null argument when one exists and
null when every argument is null, with the spec's three examples. -/
theorem c8_override_last_non_null :
    (∀ (α : Type) (l₁ l₂ : List (Option α)) (v : α), (∀ x ∈ l₂, x = none) →
      override (l₁ ++ some v :: l₂) = some v) ∧
    (∀ (α : Type) (args : List (Option α)), (∀ x ∈ args, x = none) →
      override args = none) ∧
    override [some 1, some 2, (none : Option Int)] = some 2 ∧
    override [none, some 5, (none : Option Int)] = some 5 ∧
    override ([none, none] : List (Option Int)) = none := by
  refine ⟨?_, ?_, rfl, rfl, rfl⟩
  · intro α l₁ l₂ v h
    unfold override
    rw [List.reverse_append, List.reverse_cons, List.append_assoc]
    rw [firstNonNone_append_of_none _ _
      (fun x hx => h x (List.mem_reverse.mp hx))]
    rfl
  · intro α args h
    unfold override
    exact firstNonNone_of_none _ fun x hx => h x (List.mem_reverse.mp hx)

/-!
Equality of `copy.deepcopy`'s result with its argument: the copy is
structurally fresh but value-equal.
-/
mutual
theorem copyJson_eq : ∀ j : Json, copyJson j = j
  | .obj f => by rw [copyJson, copyFields_eq f]
  | .arr e => by rw [copyJson, copyElems_eq e]
  | .str _ => rfl
  | .num _ => rfl
  | .bool _ => rfl
  | .null => rfl
theorem copyFields_eq : ∀ f : Fields, copyFields f = f
  | .nil => rfl
  | .cons k v r => by rw [copyFields, copyJson_eq v, copyFields_eq r]
theorem copyElems_eq : ∀ e : Elems, copyElems e = e
  | .nil => rfl
  | .cons v r => by rw [copyElems, copyJson_eq v, copyElems_eq r]
end

/-- C9: `abridge(data, maxLen)` returns the deep copy of `data` with `trim`
applied at threshold `maxLen`, and the `data` argument itself ends the call
with its initial value — `trim` mutates only the clone. -/
theorem c9_abridge_clones (data : Json) (maxlen : Int) :
    (abridge data maxlen).1 = trimData maxlen data ∧
    (abridge data maxlen).2 = data := by
  constructor
  · show trimData maxlen (copyJson data) = trimData maxlen data
    rw [copyJson_eq]
  · rfl

theorem trimFields_get? (m : Int) : ∀ (f : Fields) (i : Nat),
    (trimFields m f).get? i = (f.get? i).map fun kv => (kv.1, trimFieldVal m kv.2)
  | .nil, _ => rfl
  | .cons _ _ _, 0 => rfl
  | .cons _ _ r, i + 1 => trimFields_get? m r i

theorem trimElems_get? (m : Int) : ∀ (e : Elems) (i : Nat),
    (trimElems m e).get? i = (e.get? i).map (trimItem m)
  | .nil, _ => rfl
  | .cons _ _, 0 => rfl
  | .cons _ r, i + 1 => trimElems_get? m r i

/-- C2: `trim` leaves every string element of a sequence unchanged — the
loop rebinds a local and discards it — even when the element is longer than
`maxLen`; it still descends into dict and list elements of a sequence.  In
particular `trim(["x"*100], maxLen=79)` leaves the element untouched while
the same string as a dict value nested in a list is shortened. -/
theorem c2_trim_list_elements_untouched :
    (∀ (m : Int) (e : Elems) (i : Nat) (s : String),
      e.get? i = some (Json.str s) →
      (trimElems m e).get? i = some (Json.str s)) ∧
    (∀ (m : Int) (f : Fields), trimItem m (Json.obj f) = Json.obj (trimFields m f)) ∧
    (∀ (m : Int) (e : Elems), trimItem m (Json.arr e) = Json.arr (trimElems m e)) ∧
    trimData 79 (Json.arr (Elems.cons (Json.str xs100) Elems.nil))
      = Json.arr (Elems.cons (Json.str xs100) Elems.nil) ∧
    trimData 79 (Json.arr (Elems.cons
        (Json.obj (Fields.cons "a" (Json.str xs100) Fields.nil)) Elems.nil))
      = Json.arr (Elems.cons
        (Json.obj (Fields.cons "a" (Json.str (squeeze xs100 79 3)) Fields.nil))
        Elems.nil) := by
  refine ⟨?_, fun _ _ => rfl, fun _ _ => rfl, rfl, rfl⟩
  intro m e i s h
  rw [trimElems_get? m e i, h]
  rfl

/-- C3 (amended with `maxLen ≥ 5`): `trim` on a mapping replaces each
string value longer than `maxLen` with `squeeze(value, maxLen, tail=3)`,
whose length is exactly `maxLen` whenever `maxLen ≥ 5` (so in particular at
the default 79); values that are themselves mappings or sequences are
recursed into.  For `maxLen < 5` the replacement still happens but Python's
negative slice bound makes the result longer than `maxLen` (see the
counterexample). -/
theorem c3_trim_mapping_squeezes (m : Int) (hm : 5 ≤ m) :
    (∀ (f : Fields) (i : Nat) (k s : String),
      f.get? i = some (k, Json.str s) → m < (s.length : Int) →
      (trimFields m f).get? i = some (k, Json.str (squeeze s m 3)) ∧
      ((squeeze s m 3).length : Int) = m) ∧
    (∀ (f : Fields) (i : Nat) (k : String) (g : Fields),
      f.get? i = some (k, Json.obj g) →
      (trimFields m f).get? i = some (k, Json.obj (trimFields m g))) ∧
    (∀ (f : Fields) (i : Nat) (k : String) (e : Elems),
      f.get? i = some (k, Json.arr e) →
      (trimFields m f).get? i = some (k, Json.arr (trimElems m e))) := by
  refine ⟨?_, ?_, ?_⟩
  · intro f i k s h hlen
    have hsq := squeeze_length_of_long s m 3 (by omega) (by omega) hlen
    rw [trimFields_get? m f i, h]
    refine ⟨?_, hsq⟩
    simp [trimFieldVal, hlen]
  · intro f i k g h
    rw [trimFields_get? m f i, h]
    rfl
  · intro f i k e h
    rw [trimFields_get? m f i, h]
    rfl

/-- Witness for C3 at the spec's example: `trim({"a": "x"*100}, maxLen=79)`
replaces the value under `"a"` by `squeeze("x"*100, 79, 3)`, of length
exactly 79. -/
theorem c3_trim_mapping_squeezes_witness :
    (trimFields 79 (Fields.cons "a" (Json.str xs100) Fields.nil)).get? 0
      = some ("a", Json.str (squeeze xs100 79 3)) ∧
    ((squeeze xs100 79 3).length : Int) = 79 :=
  (c3_trim_mapping_squeezes 79 (by decide)).1
    (Fields.cons "a" (Json.str xs100) Fields.nil) 0 "a" xs100 rfl (by decide)

/-- Counterexample to C3 as stated for every `maxLen`: at `maxLen = 1` the
value under `"a"` is still replaced by `squeeze("x"*100, 1, 3)`, but that
replacement has length 101, not `maxLen = 1`. -/
theorem c3_trim_mapping_squeezes_counterexample :
    (trimFields 1 (Fields.cons "a" (Json.str xs100) Fields.nil)).get? 0
      = some ("a", Json.str (squeeze xs100 1 3)) ∧
    (squeeze xs100 1 3).length = 101 ∧
    ¬ ((101 : Int) = 1) :=
  ⟨rfl, by decide, by decide⟩

/-!
Spec-side characterization of what one `trim` call may change, for the
structure-preservation claim: `TrimSpec` relates a value to its trimmed
form at top level or as a sequence element (where every leaf, strings
included, is unchanged), `TrimSpecVal` at a mapping-value position (where a
string longer than the threshold — and nothing else — is replaced by its
squeeze).  Mappings keep their keys in order, sequences their length and
element order.
-/
mutual
inductive TrimSpec (m : Int) : Json → Json → Prop where
  | null : TrimSpec m .null .null
  | bool (b : Bool) : TrimSpec m (.bool b) (.bool b)
  | num (n : Int) : TrimSpec m (.num n) (.num n)
  | str (s : String) : TrimSpec m (.str s) (.str s)
  | obj (f f' : Fields) : TrimSpecFields m f f' → TrimSpec m (.obj f) (.obj f')
  | arr (e e' : Elems) : TrimSpecElems m e e' → TrimSpec m (.arr e) (.arr e')
inductive TrimSpecVal (m : Int) : Json → Json → Prop where
  | null : TrimSpecVal m .null .null
  | bool (b : Bool) : TrimSpecVal m (.bool b) (.bool b)
  | num (n : Int) : TrimSpecVal m (.num n) (.num n)
  | strShort (s : String) : (s.length : Int) ≤ m → TrimSpecVal m (.str s) (.str s)
  | strLong (s : String) : m < (s.length : Int) →
      TrimSpecVal m (.str s) (.str (squeeze s m 3))
  | obj (f f' : Fields) : TrimSpecFields m f f' → TrimSpecVal m (.obj f) (.obj f')
  | arr (e e' : Elems) : TrimSpecElems m e e' → TrimSpecVal m (.arr e) (.arr e')
inductive TrimSpecFields (m : Int) : Fields → Fields → Prop where
  | nil : TrimSpecFields m .nil .nil
  | cons (k : String) (v v' : Json) (r r' : Fields) :
      TrimSpecVal m v v' → TrimSpecFields m r r' →
      TrimSpecFields m (.cons k v r) (.cons k v' r')
inductive TrimSpecElems (m : Int) : Elems → Elems → Prop where
  | nil : TrimSpecElems m .nil .nil
  | cons (v v' : Json) (r r' : Elems) :
      TrimSpec m v v' → TrimSpecElems m r r' →
      TrimSpecElems m (.cons v r) (.cons v' r')
end

mutual
theorem trimData_spec (m : Int) : ∀ j : Json, TrimSpec m j (trimData m j)
  | .obj f => TrimSpec.obj _ _ (trimFields_spec m f)
  | .arr e => TrimSpec.arr _ _ (trimElems_spec m e)
  | .str s => TrimSpec.str s
  | .num n => TrimSpec.num n
  | .bool b => TrimSpec.bool b
  | .null => TrimSpec.null
theorem trimFields_spec (m : Int) : ∀ f : Fields, TrimSpecFields m f (trimFields m f)
  | .nil => TrimSpecFields.nil
  | .cons k v r =>
    TrimSpecFields.cons k v _ r _ (trimFieldVal_spec m v) (trimFields_spec m r)
theorem trimFieldVal_spec (m : Int) : ∀ v : Json, TrimSpecVal m v (trimFieldVal m v)
  | .obj f => TrimSpecVal.obj _ _ (trimFields_spec m f)
  | .arr e => TrimSpecVal.arr _ _ (trimElems_spec m e)
  | .str s => by
    by_cases h : (s.length : Int) > m
    · rw [show trimFieldVal m (Json.str s) = Json.str (squeeze s m 3) from by
        simp [trimFieldVal, h]]
      exact TrimSpecVal.strLong s h
    · rw [show trimFieldVal m (Json.str s) = Json.str s from by
        simp [trimFieldVal, h]]
      exact TrimSpecVal.strShort s (by omega)
  | .num n => TrimSpecVal.num n
  | .bool b => TrimSpecVal.bool b
  | .null => TrimSpecVal.null
theorem trimElems_spec (m : Int) : ∀ e : Elems, TrimSpecElems m e (trimElems m e)
  | .nil => TrimSpecElems.nil
  | .cons v r =>
    TrimSpecElems.cons v _ r _ (trimItem_spec m v) (trimElems_spec m r)
theorem trimItem_spec (m : Int) : ∀ j : Json, TrimSpec m j (trimItem m j)
  | .obj f => TrimSpec.obj _ _ (trimFields_spec m f)
  | .arr e => TrimSpec.arr _ _ (trimElems_spec m e)
  | .str s => TrimSpec.str s
  | .num n => TrimSpec.num n
  | .bool b => TrimSpec.bool b
  | .null => TrimSpec.null
end

/-- C10: `trim` preserves the structure of its argument — mapping keys in
order, sequence lengths and element order, nesting shape, every non-string
leaf, and every string outside a mapping-value position — and the only
mutation it ever performs is replacing an over-long string value inside a
mapping by its squeeze, as the relation `TrimSpec` states. -/
theorem c10_trim_preserves_structure (m : Int) (j : Json) :
    TrimSpec m j (trimData m j) :=
  trimData_spec m j
